import Mathlib

/-!
Verification of the External Plugin Subsystem of `rtx` (a polyglot runtime
version manager) against its specification.  The definitions below are a
shallow embedding of `src/plugins/external_plugin.rs`, `src/cli/ls_remote.rs`
and `src/cli/uninstall.rs`: pure Rust control flow becomes Lean functions,
filesystem facts (which files exist, their mtimes) and subprocess results
become explicit parameters, and side effects (progress messages, script
invocations, cache writes) are recorded in explicit traces or flags.
-/

namespace Rtx

/-- The closed set of well-known plugin script names
(`Script` in the plugins module), restricted to the ones the verified
operations invoke.  `ParseLegacyFile` carries the legacy file path argument. -/
inductive Script where
  | ListAll
  | ListAliases
  | ListLegacyFilenames
  | LatestStable
  | ParseLegacyFile (path : String)
  | Download
  | Install
  | Uninstall
  | ListBinPaths
  | ExecEnv
deriving DecidableEq, Repr

/-- An observable side effect of an `ExternalPlugin` operation: a progress
reporter message (`pr.set_message`) or a script invocation attempt
(`ScriptManager::run_by_line` / `run` on the named script). -/
inductive Event where
  | setMessage (msg : String)
  | runScript (s : Script)
deriving DecidableEq, Repr

/-- The facts about the plugin's `bin/` directory and its scripts' behaviour
that `ExternalPlugin::install_version` depends on: whether `bin/download` and
`bin/install` exist, and whether each script's process exits successfully
when run. -/
structure InstallScripts where
  downloadExists : Bool
  downloadOk : Bool
  installExists : Bool
  installOk : Bool
deriving DecidableEq, Repr

/-- Result of `ScriptManager::run_by_line` on a script: it fails when the
script file is missing (the process cannot be spawned) or when the process
exits non-zero. -/
def runOutcome (fileExists ok : Bool) : Bool := fileExists && ok

/-- Shallow embedding of `ExternalPlugin::install_version`
(external_plugin.rs 598-617).  Returns the ordered trace of progress and
script events, and whether the whole call succeeded.  `run_script(&Download)?`
propagates a download failure before anything else happens; otherwise the
progress message is set to "installing" and `bin/install` is run
unconditionally (there is no existence check for `bin/install`). -/
def install_version (s : InstallScripts) : List Event × Bool :=
  if s.downloadExists then
    if runOutcome s.downloadExists s.downloadOk then
      ([Event.setMessage "downloading", Event.runScript Script.Download,
        Event.setMessage "installing", Event.runScript Script.Install],
       runOutcome s.installExists s.installOk)
    else
      ([Event.setMessage "downloading", Event.runScript Script.Download], false)
  else
    ([Event.setMessage "installing", Event.runScript Script.Install],
     runOutcome s.installExists s.installOk)

/-- Rust `str::starts_with` with a string pattern, modelled on the character
list of the string (a character-level prefix is a byte-level prefix in
UTF-8 and conversely). -/
def startsWithM (v pat : String) : Bool := pat.data.isPrefixOf v.data

/-- Shallow embedding of the filtering step of `LsRemote::run`
(ls_remote.rs 39-46): keep, in order, the remote versions that start with
the prefix; with no prefix keep everything. -/
def lsRemoteVersions (versions : List String) (pfx : Option String) : List String :=
  match pfx with
  | some p => versions.filter (fun v => startsWithM v p)
  | none => versions

/-- The stdout produced by the `rtxprintln!` loop of `LsRemote::run`
(ls_remote.rs 48-50): each selected version followed by a newline. -/
def lsRemoteStdout (versions : List String) (pfx : Option String) : String :=
  String.join ((lsRemoteVersions versions pfx).map (fun v => v ++ "\n"))

/-- `ToolVersionRequest` from the toolset module: how the user asked for the
tool version.  Payloads are the plugin name and the request argument. -/
inductive ToolVersionRequest where
  | Version (plugin : String) (v : String)
  | Prefix (plugin : String) (pfx : String)
  | Ref (plugin : String) (r : String)
  | Path (plugin : String) (p : String)
  | Sub (plugin : String) (sub : String) (origVersion : String)
  | System (plugin : String)
deriving DecidableEq, Repr

/-- Shallow embedding of the prefix selection of `LsRemote::run`
(ls_remote.rs 34-37): a `Version` request carried by the TOOL@VERSION
argument supplies the filter prefix; in every other case the positional
`prefix` argument is used. -/
def lsRemoteEffectivePrefix (tvr : Option ToolVersionRequest)
    (positional : Option String) : Option String :=
  match tvr with
  | some (ToolVersionRequest.Version _ v) => some v
  | _ => positional

end Rtx

namespace Rtx

/-- C1: for every state of the plugin's download/install scripts in which a
download that runs completes successfully, `install_version` runs
`bin/download` iff the file exists, the download completes before the install
starts, the progress message is set to "downloading" immediately before the
download and to "installing" immediately before the install, and the install
script is run in every call. -/
theorem install_version_download_iff_and_order (s : InstallScripts)
    (hdl : s.downloadExists = true → s.downloadOk = true) :
    (Event.runScript Script.Download ∈ (install_version s).1 ↔ s.downloadExists = true)
    ∧ Event.runScript Script.Install ∈ (install_version s).1
    ∧ (s.downloadExists = true →
        (install_version s).1 =
          [Event.setMessage "downloading", Event.runScript Script.Download,
           Event.setMessage "installing", Event.runScript Script.Install])
    ∧ (s.downloadExists = false →
        (install_version s).1 =
          [Event.setMessage "installing", Event.runScript Script.Install]) := by
  obtain ⟨de, dk, ie, ik⟩ := s
  cases de <;> cases dk <;> simp_all [install_version, runOutcome]

/-- Witness for C1 at a concrete state with both scripts present and
succeeding. -/
theorem install_version_download_iff_and_order_witness :
    (Event.runScript Script.Download ∈
        (install_version ⟨true, true, true, true⟩).1 ↔ true = true)
    ∧ Event.runScript Script.Install ∈ (install_version ⟨true, true, true, true⟩).1
    ∧ (true = true →
        (install_version ⟨true, true, true, true⟩).1 =
          [Event.setMessage "downloading", Event.runScript Script.Download,
           Event.setMessage "installing", Event.runScript Script.Install])
    ∧ (true = false →
        (install_version ⟨true, true, true, true⟩).1 =
          [Event.setMessage "installing", Event.runScript Script.Install]) :=
  install_version_download_iff_and_order ⟨true, true, true, true⟩ (fun _ => rfl)

/-- C10: `install_version` attempts to run `bin/install` with no existence
check, so when the plugin provides no install script the call fails rather
than succeeding as a no-op (shown here for every state whose download, if
present, succeeds — otherwise the failure is the download's). -/
theorem install_version_no_install_script_fails (s : InstallScripts)
    (hdl : s.downloadExists = true → s.downloadOk = true)
    (hni : s.installExists = false) :
    Event.runScript Script.Install ∈ (install_version s).1
    ∧ (install_version s).2 = false := by
  obtain ⟨de, dk, ie, ik⟩ := s
  cases de <;> cases dk <;> simp_all [install_version, runOutcome]

/-- Witness for C10: no download script, no install script. -/
theorem install_version_no_install_script_fails_witness :
    Event.runScript Script.Install ∈ (install_version ⟨false, false, false, true⟩).1
    ∧ (install_version ⟨false, false, false, true⟩).2 = false :=
  install_version_no_install_script_fails ⟨false, false, false, true⟩
    (fun h => absurd h (by decide)) rfl

/-- C2: `ls-remote` with a prefix outputs exactly the remote versions whose
string starts with the prefix, keeping their original order (the output is a
sublist of the input), one version per line; with no prefix it outputs every
remote version.  The last conjunct is the spec's literal scenario. -/
theorem lsRemote_filters_by_prefix (versions : List String) (p : String) :
    (∀ v, v ∈ lsRemoteVersions versions (some p) ↔
        v ∈ versions ∧ startsWithM v p = true)
    ∧ List.Sublist (lsRemoteVersions versions (some p)) versions
    ∧ lsRemoteVersions versions none = versions
    ∧ lsRemoteStdout ["1.0.0", "1.1.0", "2.0.0"] (some "1") = "1.0.0\n1.1.0\n" := by
  refine ⟨fun v => ?_, ?_, rfl, by decide⟩
  · simp [lsRemoteVersions, List.mem_filter]
  · exact List.filter_sublist versions

/-- C9: when the TOOL@VERSION argument of `ls-remote` carries a `Version`
request, its version string is the filter prefix and the positional prefix
argument is ignored; the positional argument is used exactly when the tool
argument carries no `Version` request. -/
theorem lsRemote_version_overrides_positional (tvr : Option ToolVersionRequest)
    (positional : Option String) :
    (∀ pl v, tvr = some (ToolVersionRequest.Version pl v) →
        lsRemoteEffectivePrefix tvr positional = some v)
    ∧ ((∀ pl v, tvr ≠ some (ToolVersionRequest.Version pl v)) →
        lsRemoteEffectivePrefix tvr positional = positional) := by
  constructor
  · rintro pl v rfl
    rfl
  · intro h
    match tvr with
    | none => rfl
    | some (ToolVersionRequest.Version pl v) => exact absurd rfl (h pl v)
    | some (ToolVersionRequest.Prefix _ _) => rfl
    | some (ToolVersionRequest.Ref _ _) => rfl
    | some (ToolVersionRequest.Path _ _) => rfl
    | some (ToolVersionRequest.Sub _ _ _) => rfl
    | some (ToolVersionRequest.System _) => rfl

/-- Witness for C9: `ls-remote node@20 1` filters by "20", ignoring the
positional "1". -/
theorem lsRemote_version_overrides_positional_witness :
    lsRemoteEffectivePrefix (some (ToolVersionRequest.Version "node" "20"))
      (some "1") = some "20" :=
  (lsRemote_version_overrides_positional
      (some (ToolVersionRequest.Version "node" "20")) (some "1")).1 "node" "20" rfl

end Rtx

namespace Rtx

/-- `EnvDiffOperation` from the env-diff module: one element of the
difference between the environment before and after sourcing a script. -/
inductive EnvDiffOperation where
  | Add (key value : String)
  | Change (key value : String)
  | Remove (key : String)
deriving DecidableEq, Repr

/-- Shallow embedding of `ExternalPlugin::fetch_exec_env`
(external_plugin.rs 259-272): keep the `Add` and `Change` patches of the
environment diff produced by sourcing `bin/exec-env`, drop the `Remove`
patches. -/
def fetch_exec_env (patches : List EnvDiffOperation) : List (String × String) :=
  patches.filterMap fun p =>
    match p with
    | EnvDiffOperation.Add key value => some (key, value)
    | EnvDiffOperation.Change key value => some (key, value)
    | EnvDiffOperation.Remove _ => none

/-- What a call to `exec_env` produced: the returned environment map (as the
list of key/value pairs) and whether a shell subprocess was launched to
source the script. -/
structure ExecEnvOutcome where
  env : List (String × String)
  shellInvoked : Bool
deriving DecidableEq, Repr

/-- Shallow embedding of `ExternalPlugin::exec_env` (external_plugin.rs
632-643).  `isSystem` is `matches!(tv.request, System(_))`, `scriptExists`
is `script_man.script_exists(&ExecEnv)`, `sentinel` is the `__RTX_SCRIPT`
environment variable, and `patches` is the env diff the shell would
observe.  The two early returns hand back the shared empty map without
running anything. -/
def exec_env (isSystem scriptExists sentinel : Bool)
    (patches : List EnvDiffOperation) : ExecEnvOutcome :=
  if isSystem then ⟨[], false⟩
  else if !scriptExists || sentinel then ⟨[], false⟩
  else ⟨fetch_exec_env patches, true⟩

/-- Mtimes and contents relevant to `parse_legacy_file` for one legacy file
path: the legacy cache file (under `cache/legacy/<plugin>/<hash>.txt`), the
`bin/parse-legacy-file` script, and the legacy file itself.  Mtimes are
modelled as naturals. -/
structure LegacyFileState where
  cacheFileExists : Bool
  cacheMtime : Nat
  legacyMtime : Nat
  cacheContent : String
  scriptExists : Bool
  scriptStdout : String
  legacyContent : String
deriving DecidableEq, Repr

/-- Rust `str::trim`, modelled on the character list: drop leading and
trailing whitespace. -/
def trimM (s : String) : String :=
  String.mk (((s.data.dropWhile Char.isWhitespace).reverse.dropWhile
    Char.isWhitespace).reverse)

/-- Shallow embedding of `ExternalPlugin::fetch_cached_legacy_file`
(external_plugin.rs 216-223): `None` when the cache file is missing or
strictly older than the legacy file, otherwise the trimmed cache file
contents. -/
def fetch_cached_legacy_file (s : LegacyFileState) : Option String :=
  if !s.cacheFileExists || s.cacheMtime < s.legacyMtime then none
  else some (trimM s.cacheContent)

/-- What a call to `parse_legacy_file` did: the returned version string and
which effects happened (running `bin/parse-legacy-file`, reading the legacy
file directly, writing the legacy cache). -/
structure LegacyParseOutcome where
  value : String
  ranScript : Bool
  readLegacyFile : Bool
  wroteCache : Bool
deriving DecidableEq, Repr

/-- Shallow embedding of `ExternalPlugin::parse_legacy_file`
(external_plugin.rs 518-533): return a cache hit as is; on a miss run the
`parse-legacy-file` script when the plugin provides one and otherwise read
the legacy file verbatim, trim, write through the legacy cache
(`write_legacy_cache`), and return the trimmed value. -/
def parse_legacy_file (s : LegacyFileState) : LegacyParseOutcome :=
  match fetch_cached_legacy_file s with
  | some cached => ⟨cached, false, false, false⟩
  | none =>
    if s.scriptExists then ⟨trimM s.scriptStdout, true, false, true⟩
    else ⟨trimM s.legacyContent, false, true, true⟩

end Rtx

namespace Rtx

/-- C3: `exec_env` returns the empty map without launching a shell when the
request is `System`, when `bin/exec-env` does not exist, or when the
`__RTX_SCRIPT` sentinel is set; otherwise it returns exactly the added and
changed variables of the environment diff, ignoring removed ones. -/
theorem exec_env_spec (isSystem scriptExists sentinel : Bool)
    (patches : List EnvDiffOperation) :
    ((isSystem = true ∨ scriptExists = false ∨ sentinel = true) →
        exec_env isSystem scriptExists sentinel patches = ⟨[], false⟩)
    ∧ (isSystem = false → scriptExists = true → sentinel = false →
        (exec_env isSystem scriptExists sentinel patches).shellInvoked = true
        ∧ ∀ k v, (k, v) ∈ (exec_env isSystem scriptExists sentinel patches).env ↔
            (EnvDiffOperation.Add k v ∈ patches
              ∨ EnvDiffOperation.Change k v ∈ patches)) := by
  constructor
  · intro h
    cases isSystem <;> cases scriptExists <;> cases sentinel <;> simp_all [exec_env]
  · rintro rfl rfl rfl
    have hred : exec_env false true false patches = ⟨fetch_exec_env patches, true⟩ := rfl
    rw [hred]
    refine ⟨rfl, fun k v => ?_⟩
    simp only [fetch_exec_env, List.mem_filterMap]
    constructor
    · rintro ⟨p, hp, he⟩
      cases p <;> simp_all
    · rintro (h | h)
      · exact ⟨EnvDiffOperation.Add k v, h, rfl⟩
      · exact ⟨EnvDiffOperation.Change k v, h, rfl⟩

/-- Witness for C3: the guarded branch at a concrete diff containing one of
each patch kind. -/
theorem exec_env_spec_witness :
    (false = true → true = true → false = false →
        (exec_env false true false
            [EnvDiffOperation.Add "A" "1", EnvDiffOperation.Change "B" "2",
             EnvDiffOperation.Remove "C"] = ⟨[], false⟩))
    ∧ ((exec_env false true false
          [EnvDiffOperation.Add "A" "1", EnvDiffOperation.Change "B" "2",
           EnvDiffOperation.Remove "C"]).shellInvoked = true
        ∧ ∀ k v, (k, v) ∈ (exec_env false true false
            [EnvDiffOperation.Add "A" "1", EnvDiffOperation.Change "B" "2",
             EnvDiffOperation.Remove "C"]).env ↔
            (EnvDiffOperation.Add k v ∈
                [EnvDiffOperation.Add "A" "1", EnvDiffOperation.Change "B" "2",
                 EnvDiffOperation.Remove "C"]
              ∨ EnvDiffOperation.Change k v ∈
                [EnvDiffOperation.Add "A" "1", EnvDiffOperation.Change "B" "2",
                 EnvDiffOperation.Remove "C"])) :=
  ⟨fun h _ _ => absurd h (by decide),
   (exec_env_spec false true false
      [EnvDiffOperation.Add "A" "1", EnvDiffOperation.Change "B" "2",
       EnvDiffOperation.Remove "C"]).2 rfl rfl rfl⟩

/-- C4: `parse_legacy_file` returns the cached value exactly when the cache
file exists and its mtime is at least the legacy file's mtime; on a cache
miss it runs `bin/parse-legacy-file` when the plugin provides it and
otherwise reads the legacy file verbatim, trims the result, writes it
through the legacy cache, and returns it. -/
theorem parse_legacy_file_spec (s : LegacyFileState) :
    (s.cacheFileExists = true → s.legacyMtime ≤ s.cacheMtime →
        parse_legacy_file s = ⟨trimM s.cacheContent, false, false, false⟩)
    ∧ ((s.cacheFileExists = false ∨ s.cacheMtime < s.legacyMtime) →
        parse_legacy_file s =
          if s.scriptExists then ⟨trimM s.scriptStdout, true, false, true⟩
          else ⟨trimM s.legacyContent, false, true, true⟩) := by
  constructor
  · intro hex hle
    have hnot : ¬ s.cacheMtime < s.legacyMtime := not_lt.mpr hle
    simp [parse_legacy_file, fetch_cached_legacy_file, hex, hnot]
  · intro h
    have hmiss : fetch_cached_legacy_file s = none := by
      rcases h with h | h <;> simp [fetch_cached_legacy_file, h]
    cases hsc : s.scriptExists <;> simp [parse_legacy_file, hmiss, hsc]

/-- Witness for C4: the spec's legacy-file scenario — cache written at t=0,
legacy file overwritten at t=1 with "2.0", no parse script: the stale cache
is ignored and the file contents are returned and re-cached. -/
theorem parse_legacy_file_spec_witness :
    (⟨true, 0, 1, "1.0", false, "", "2.0\n"⟩ : LegacyFileState).cacheFileExists = false
      ∨ (⟨true, 0, 1, "1.0", false, "", "2.0\n"⟩ : LegacyFileState).cacheMtime <
        (⟨true, 0, 1, "1.0", false, "", "2.0\n"⟩ : LegacyFileState).legacyMtime
    ∧ parse_legacy_file ⟨true, 0, 1, "1.0", false, "", "2.0\n"⟩ =
        if (⟨true, 0, 1, "1.0", false, "", "2.0\n"⟩ : LegacyFileState).scriptExists
        then ⟨trimM "", true, false, true⟩
        else ⟨trimM "2.0\n", false, true, true⟩ :=
  Or.inr ⟨by decide,
    (parse_legacy_file_spec ⟨true, 0, 1, "1.0", false, "", "2.0\n"⟩).2
      (Or.inr (by decide))⟩

end Rtx

namespace Rtx

/-- Rust `str::lines` modelled on the character list: split on the newline
character.  A trailing carriage return or a trailing empty piece is
harmless for the alias grammar because whitespace splitting discards it. -/
def splitOnChar (sep : Char) : List Char → List (List Char)
  | [] => [[]]
  | c :: rest =>
    if c = sep then [] :: splitOnChar sep rest
    else
      match splitOnChar sep rest with
      | [] => [[c]]
      | h :: t => (c :: h) :: t

/-- The lines of a string, for the per-line alias grammar. -/
def linesM (s : String) : List String :=
  (splitOnChar (Char.ofNat 10) s.data).map String.mk

/-- Accumulator loop of whitespace splitting: `acc` is the current token,
reversed. -/
def splitWsGo : List Char → List Char → List (List Char)
  | acc, [] => if acc.isEmpty then [] else [acc.reverse]
  | acc, c :: rest =>
    if c.isWhitespace then
      if acc.isEmpty then splitWsGo [] rest
      else acc.reverse :: splitWsGo [] rest
    else splitWsGo (c :: acc) rest

/-- Rust `str::split_whitespace`: the maximal whitespace-free tokens of the
string, in order, with no empty tokens. -/
def splitWhitespaceM (s : String) : List String :=
  (splitWsGo [] s.data).map String.mk

/-- The per-line step of `ExternalPlugin::parse_aliases`: a line with exactly
two whitespace-delimited tokens yields a `(name, value)` pair, every other
line (including empty ones) is skipped. -/
def aliasOfLine (line : String) : Option (String × String) :=
  match splitWhitespaceM line with
  | [name, value] => some (name, value)
  | _ => none

/-- Shallow embedding of `ExternalPlugin::parse_aliases`
(external_plugin.rs 201-214). -/
def parse_aliases (data : String) : List (String × String) :=
  (linesM data).filterMap aliasOfLine

/-- One insertion into a `BTreeMap<String, String>` modelled as a
key-sorted association list: a later insert with an existing key replaces
the value. -/
def btreeInsert : List (String × String) → String × String → List (String × String)
  | [], kv => [kv]
  | (k, v) :: rest, kv =>
    if kv.1 < k then kv :: (k, v) :: rest
    else if kv.1 = k then (kv.1, kv.2) :: rest
    else (k, v) :: btreeInsert rest kv

/-- `collect::<BTreeMap<_, _>>()` on a list of pairs. -/
def btreeOfList (l : List (String × String)) : List (String × String) :=
  l.foldl btreeInsert []

/-- What `ExternalPlugin::get_aliases` depends on: the optional
`rtx.plugin.toml` manifest data for `list_aliases`, whether
`bin/list-aliases` exists, and the script's stdout as produced through the
alias cache. -/
structure AliasState where
  manifestAliasData : Option String
  hasListAliasScript : Bool
  scriptStdout : String
deriving DecidableEq, Repr

/-- Shallow embedding of `ExternalPlugin::get_aliases`
(external_plugin.rs 476-497): manifest data first, else the empty map when
the script is absent, else the parsed cached script output.  The second
component records whether the script/alias cache was consulted. -/
def get_aliases (s : AliasState) : List (String × String) × Bool :=
  match s.manifestAliasData with
  | some data => (btreeOfList (parse_aliases data), false)
  | none =>
    if !s.hasListAliasScript then ([], false)
    else (btreeOfList (parse_aliases s.scriptStdout), true)

/-- A line contributes a pair exactly when it has exactly two tokens. -/
theorem aliasOfLine_eq_some (line a b : String) :
    aliasOfLine line = some (a, b) ↔ splitWhitespaceM line = [a, b] := by
  rcases h : splitWhitespaceM line with _ | ⟨x, _ | ⟨y, _ | ⟨z, t⟩⟩⟩ <;>
    simp [aliasOfLine, h]

/-- The state of the four per-plugin directories that
`ExternalPlugin::uninstall` can see. -/
structure PluginDirs where
  pluginPathExists : Bool
  installsExists : Bool
  downloadsExists : Bool
  cacheExists : Bool
deriving DecidableEq, Repr

/-- `ExternalPlugin::is_installed` (external_plugin.rs 395-397):
`plugin_path.exists()`. -/
def is_installed (s : PluginDirs) : Bool := s.pluginPathExists

/-- Shallow embedding of `ExternalPlugin::uninstall`
(external_plugin.rs 452-474): success immediately when not installed,
otherwise `remove_all` on `plugin_path` alone (`removeOk` is whether that
removal succeeds); the installs, downloads and cache directories are never
touched. -/
def uninstall (s : PluginDirs) (removeOk : Bool) : PluginDirs × Bool :=
  if !is_installed s then (s, true)
  else if removeOk then ({ s with pluginPathExists := false }, true)
  else (s, false)

end Rtx

namespace Rtx

/-- C5: `get_aliases` returns the parse of the manifest's `list_aliases`
data whenever it is present, without consulting the script or the alias
cache; otherwise the empty map when `bin/list-aliases` is absent, and
otherwise the parsed cached script output.  Parsing keeps exactly the lines
with exactly two whitespace-delimited tokens. -/
theorem get_aliases_spec (s : AliasState) :
    (∀ data, s.manifestAliasData = some data →
        get_aliases s = (btreeOfList (parse_aliases data), false))
    ∧ (s.manifestAliasData = none → s.hasListAliasScript = false →
        get_aliases s = ([], false))
    ∧ (s.manifestAliasData = none → s.hasListAliasScript = true →
        get_aliases s = (btreeOfList (parse_aliases s.scriptStdout), true))
    ∧ (∀ data a b, (a, b) ∈ parse_aliases data ↔
        ∃ line ∈ linesM data, splitWhitespaceM line = [a, b]) := by
  refine ⟨fun data h => ?_, fun h hsc => ?_, fun h hsc => ?_, fun data a b => ?_⟩
  · simp [get_aliases, h]
  · simp [get_aliases, h, hsc]
  · simp [get_aliases, h, hsc]
  · simp [parse_aliases, List.mem_filterMap, aliasOfLine_eq_some]

/-- Witness for C5: manifest data overriding an existing script, with a
malformed line and an empty line skipped. -/
theorem get_aliases_spec_witness :
    ((⟨some "lts 20.1.0\nbad\n\nold 18 x", true, "ignored 1"⟩ : AliasState).manifestAliasData
        = some "lts 20.1.0\nbad\n\nold 18 x" →
      get_aliases ⟨some "lts 20.1.0\nbad\n\nold 18 x", true, "ignored 1"⟩ =
        (btreeOfList (parse_aliases "lts 20.1.0\nbad\n\nold 18 x"), false))
    ∧ get_aliases ⟨some "lts 20.1.0\nbad\n\nold 18 x", true, "ignored 1"⟩ =
        ([("lts", "20.1.0")], false) :=
  ⟨(get_aliases_spec ⟨some "lts 20.1.0\nbad\n\nold 18 x", true, "ignored 1"⟩).1
      "lts 20.1.0\nbad\n\nold 18 x",
   by decide⟩

/-- C6: `uninstall` succeeds as a no-op when `plugin_path` does not exist,
removes only `plugin_path` when it does exist — the installs, downloads and
cache directories are unchanged in every case — and after a successful
uninstall `is_installed` is false. -/
theorem uninstall_spec (s : PluginDirs) (removeOk : Bool) :
    (s.pluginPathExists = false → uninstall s removeOk = (s, true))
    ∧ (uninstall s removeOk).1.installsExists = s.installsExists
    ∧ (uninstall s removeOk).1.downloadsExists = s.downloadsExists
    ∧ (uninstall s removeOk).1.cacheExists = s.cacheExists
    ∧ ((uninstall s removeOk).2 = true →
        is_installed (uninstall s removeOk).1 = false)
    ∧ (s.pluginPathExists = true → removeOk = true →
        uninstall s removeOk = ({ s with pluginPathExists := false }, true)) := by
  obtain ⟨pp, ins, dl, ca⟩ := s
  cases pp <;> cases removeOk <;>
    simp [uninstall, is_installed]

/-- Witness for C6: an installed plugin with every sibling directory
present, successful removal. -/
theorem uninstall_spec_witness :
    ((⟨true, true, true, true⟩ : PluginDirs).pluginPathExists = false →
        uninstall ⟨true, true, true, true⟩ true = (⟨true, true, true, true⟩, true))
    ∧ (uninstall ⟨true, true, true, true⟩ true).1.installsExists = true
    ∧ (uninstall ⟨true, true, true, true⟩ true).1.downloadsExists = true
    ∧ (uninstall ⟨true, true, true, true⟩ true).1.cacheExists = true
    ∧ ((uninstall ⟨true, true, true, true⟩ true).2 = true →
        is_installed (uninstall ⟨true, true, true, true⟩ true).1 = false)
    ∧ ((⟨true, true, true, true⟩ : PluginDirs).pluginPathExists = true → true = true →
        uninstall ⟨true, true, true, true⟩ true = (⟨false, true, true, true⟩, true)) :=
  uninstall_spec ⟨true, true, true, true⟩ true

end Rtx

namespace Rtx

/-- The inputs `ExternalPlugin::ensure_installed` depends on: the `force`
flag, whether the plugin is installed, the user-supplied repo URL override
(`self.repo_url`), the community-registry URL (`config.get_repo_url`), the
`settings.yes` auto-confirm flag, the answer the user would give to the
confirmation prompt, and whether the delegated `install` succeeds. -/
structure EnsureArgs where
  force : Bool
  installed : Bool
  repoUrlOverride : Option String
  registryUrl : Option String
  settingsYes : Bool
  promptAccept : Bool
  installOk : Bool
deriving DecidableEq, Repr

/-- The error kinds `ensure_installed` can surface. -/
inductive EnsureError where
  | PluginNotInstalled
  | NoRepoUrl
  | InstallFailed
deriving DecidableEq, Repr

/-- What a call to `ensure_installed` did: its result and which effects
happened (showing the confirmation prompt, acquiring the file lock on
`plugin_path`, running `install`). -/
structure EnsureTrace where
  err : Option EnsureError
  prompted : Bool
  lockAcquired : Bool
  installRan : Bool
deriving DecidableEq, Repr

/-- Shallow embedding of `ExternalPlugin::ensure_installed`
(external_plugin.rs 399-427).  Without `force`: success immediately when
installed; when the repo URL is not a user override and auto-confirm is
off, resolve the URL (`get_repo_url`, which fails when the registry has
none either) and prompt, mapping refusal to `PluginNotInstalled`.  All
remaining paths acquire the lock on `plugin_path` and delegate to
`install`. -/
def ensure_installed (a : EnsureArgs) : EnsureTrace :=
  if !a.force && a.installed then ⟨none, false, false, false⟩
  else if !a.force && !a.settingsYes && a.repoUrlOverride.isNone then
    match a.registryUrl with
    | none => ⟨some EnsureError.NoRepoUrl, false, false, false⟩
    | some _ =>
      if !a.promptAccept then ⟨some EnsureError.PluginNotInstalled, true, false, false⟩
      else ⟨if a.installOk then none else some EnsureError.InstallFailed, true, true, true⟩
  else ⟨if a.installOk then none else some EnsureError.InstallFailed, false, true, true⟩

/-- Environments composed by the `ScriptManager` are maps from variable
names to values; `with_env` overrides any earlier binding of the key. -/
def withEnv (env : String → Option String) (key value : String) :
    String → Option String :=
  fun q => if q = key then some value else env q

/-- The `install_type` match of `ExternalPlugin::script_man_for_tv`
(external_plugin.rs 284-292); `none` is the `panic!` on a `System`
request. -/
def installTypeOf : ToolVersionRequest → Option String
  | ToolVersionRequest.Version _ _ => some "version"
  | ToolVersionRequest.Prefix _ _ => some "version"
  | ToolVersionRequest.Ref _ _ => some "ref"
  | ToolVersionRequest.Path _ _ => some "path"
  | ToolVersionRequest.Sub _ _ _ => some "sub"
  | ToolVersionRequest.System _ => none

/-- A `ToolVersion`: the request it came from, the resolved version string,
and the tool options mapping. -/
structure ToolVersion where
  request : ToolVersionRequest
  version : String
  opts : List (String × String)

/-- Shallow embedding of `ExternalPlugin::script_man_for_tv`
(external_plugin.rs 274-319): overlay the tool options (uppercased keys
under `RTX_TOOL_OPTS__`), the project root when known, then the install and
download paths, the install type and the install version, each with its
`ASDF_*` alias; `none` models the `panic!` for a `System` request. -/
def script_man_for_tv (baseEnv : String → Option String)
    (projectRoot : Option String) (installPath downloadPath : String)
    (tv : ToolVersion) : Option (String → Option String) :=
  let sm := tv.opts.foldl
    (fun e kv => withEnv e (String.append "RTX_TOOL_OPTS__" kv.1.toUpper) kv.2)
    baseEnv
  let sm := match projectRoot with
    | some root => withEnv sm "RTX_PROJECT_ROOT" root
    | none => sm
  match installTypeOf tv.request with
  | none => none
  | some instType =>
    let instVersion := match tv.request with
      | ToolVersionRequest.Ref _ v => v
      | _ => tv.version
    some (withEnv (withEnv (withEnv (withEnv (withEnv (withEnv (withEnv (withEnv sm
      "RTX_INSTALL_PATH" installPath) "ASDF_INSTALL_PATH" installPath)
      "RTX_DOWNLOAD_PATH" downloadPath) "ASDF_DOWNLOAD_PATH" downloadPath)
      "RTX_INSTALL_TYPE" instType) "ASDF_INSTALL_TYPE" instType)
      "RTX_INSTALL_VERSION" instVersion) "ASDF_INSTALL_VERSION" instVersion)

/-- The claim's install-type table, transcribed from the spec's words
(`version`, `ref`, `path`, `sub` according to the request variant), to be
compared against what `script_man_for_tv` sets. -/
def specInstallType : ToolVersionRequest → String
  | ToolVersionRequest.Version _ _ => "version"
  | ToolVersionRequest.Prefix _ _ => "version"
  | ToolVersionRequest.Ref _ _ => "ref"
  | ToolVersionRequest.Path _ _ => "path"
  | ToolVersionRequest.Sub _ _ _ => "sub"
  | ToolVersionRequest.System _ => ""

/-- The claim's install-version rule, transcribed from the spec's words:
the bare ref string for a `Ref` request, the resolved version otherwise. -/
def specInstallVersion (tv : ToolVersion) : String :=
  match tv.request with
  | ToolVersionRequest.Ref _ r => r
  | _ => tv.version

end Rtx

namespace Rtx

/-- C7: without `force`, `ensure_installed` of an installed plugin succeeds
immediately (no prompt, no lock, no install); for a plugin that is not
installed, whose URL is not a user override and with auto-confirm off, the
user is prompted, refusal fails with `PluginNotInstalled`, and acceptance —
or `force` — proceeds to `install` under the file lock on `plugin_path`. -/
theorem ensure_installed_spec (a : EnsureArgs) :
    (a.force = false → a.installed = true →
        ensure_installed a = ⟨none, false, false, false⟩)
    ∧ (a.force = false → a.installed = false → a.repoUrlOverride = none →
        a.settingsYes = false → ∀ u, a.registryUrl = some u →
        ((ensure_installed a).prompted = true
          ∧ (a.promptAccept = false →
              ensure_installed a =
                ⟨some EnsureError.PluginNotInstalled, true, false, false⟩)
          ∧ (a.promptAccept = true →
              (ensure_installed a).lockAcquired = true
              ∧ (ensure_installed a).installRan = true)))
    ∧ (a.force = true →
        (ensure_installed a).lockAcquired = true
        ∧ (ensure_installed a).installRan = true) := by
  obtain ⟨f, i, ov, reg, y, pa, ok⟩ := a
  cases f <;> cases i <;> cases y <;> cases pa <;> cases ok <;>
    rcases ov with _ | u <;> rcases reg with _ | r <;>
    simp [ensure_installed]

/-- Witness for C7: not installed, registry URL, no override, auto-confirm
off, prompt accepted, install succeeds. -/
theorem ensure_installed_spec_witness :
    ((⟨false, false, none, some "https://example.com/x.git", false, true, true⟩ :
        EnsureArgs).force = false →
      (⟨false, false, none, some "https://example.com/x.git", false, true, true⟩ :
        EnsureArgs).installed = true →
      ensure_installed
        ⟨false, false, none, some "https://example.com/x.git", false, true, true⟩ =
        ⟨none, false, false, false⟩)
    ∧ ((ensure_installed
          ⟨false, false, none, some "https://example.com/x.git", false, true, true⟩).prompted
            = true
        ∧ (ensure_installed
            ⟨false, false, none, some "https://example.com/x.git", false, true, true⟩).lockAcquired
            = true
        ∧ (ensure_installed
            ⟨false, false, none, some "https://example.com/x.git", false, true, true⟩).installRan
            = true) :=
  ⟨fun _ h => absurd h (by decide),
   ⟨((ensure_installed_spec
        ⟨false, false, none, some "https://example.com/x.git", false, true, true⟩).2.1
      rfl rfl rfl rfl "https://example.com/x.git" rfl).1,
    ((ensure_installed_spec
        ⟨false, false, none, some "https://example.com/x.git", false, true, true⟩).2.1
      rfl rfl rfl rfl "https://example.com/x.git" rfl).2.2 rfl⟩⟩

/-- C8: for every non-`System` tool version, the per-tool-version
environment of `script_man_for_tv` is defined (the `panic!` for `System` is
unreachable), sets `RTX_INSTALL_TYPE` to `version`/`ref`/`path`/`sub`
according to the request variant, sets `RTX_INSTALL_VERSION` to the bare ref
string for a `Ref` request and to the resolved version otherwise, and sets
each `ASDF_*` alias equal to its `RTX_*` counterpart. -/
theorem script_man_for_tv_env_spec (baseEnv : String → Option String)
    (projectRoot : Option String) (installPath downloadPath : String)
    (tv : ToolVersion) (hsys : ∀ pl, tv.request ≠ ToolVersionRequest.System pl) :
    ∃ env, script_man_for_tv baseEnv projectRoot installPath downloadPath tv = some env
      ∧ env "RTX_INSTALL_TYPE" = some (specInstallType tv.request)
      ∧ specInstallType tv.request ∈ (["version", "ref", "path", "sub"] : List String)
      ∧ env "ASDF_INSTALL_TYPE" = env "RTX_INSTALL_TYPE"
      ∧ env "RTX_INSTALL_VERSION" = some (specInstallVersion tv)
      ∧ env "ASDF_INSTALL_VERSION" = env "RTX_INSTALL_VERSION"
      ∧ env "ASDF_INSTALL_PATH" = env "RTX_INSTALL_PATH"
      ∧ env "ASDF_DOWNLOAD_PATH" = env "RTX_DOWNLOAD_PATH" := by
  obtain ⟨req, ver, opts⟩ := tv
  cases req with
  | System pl => exact absurd rfl (hsys pl)
  | Version pl v =>
    refine ⟨_, rfl, rfl, ?_, rfl, rfl, rfl, rfl, rfl⟩
    simp [specInstallType]
  | Prefix pl v =>
    refine ⟨_, rfl, rfl, ?_, rfl, rfl, rfl, rfl, rfl⟩
    simp [specInstallType]
  | Ref pl r =>
    refine ⟨_, rfl, rfl, ?_, rfl, rfl, rfl, rfl, rfl⟩
    simp [specInstallType]
  | Path pl p =>
    refine ⟨_, rfl, rfl, ?_, rfl, rfl, rfl, rfl, rfl⟩
    simp [specInstallType]
  | Sub pl sub orig =>
    refine ⟨_, rfl, rfl, ?_, rfl, rfl, rfl, rfl, rfl⟩
    simp [specInstallType]

/-- Witness for C8: a `Ref` request — the install type is `ref` and the
install version is the bare ref string, not the resolved `ref:master`
version. -/
theorem script_man_for_tv_env_spec_witness :
    ∃ env, script_man_for_tv (fun _ => none) none "/installs/node/ref-master"
        "/downloads/node/ref-master"
        ⟨ToolVersionRequest.Ref "node" "master", "ref:master", []⟩ = some env
      ∧ env "RTX_INSTALL_TYPE" =
          some (specInstallType
            (⟨ToolVersionRequest.Ref "node" "master", "ref:master", []⟩ :
              ToolVersion).request)
      ∧ specInstallType
          (⟨ToolVersionRequest.Ref "node" "master", "ref:master", []⟩ :
            ToolVersion).request ∈ (["version", "ref", "path", "sub"] : List String)
      ∧ env "ASDF_INSTALL_TYPE" = env "RTX_INSTALL_TYPE"
      ∧ env "RTX_INSTALL_VERSION" =
          some (specInstallVersion
            ⟨ToolVersionRequest.Ref "node" "master", "ref:master", []⟩)
      ∧ env "ASDF_INSTALL_VERSION" = env "RTX_INSTALL_VERSION"
      ∧ env "ASDF_INSTALL_PATH" = env "RTX_INSTALL_PATH"
      ∧ env "ASDF_DOWNLOAD_PATH" = env "RTX_DOWNLOAD_PATH" :=
  script_man_for_tv_env_spec (fun _ => none) none "/installs/node/ref-master"
    "/downloads/node/ref-master"
    ⟨ToolVersionRequest.Ref "node" "master", "ref:master", []⟩
    (fun _ h => ToolVersionRequest.noConfusion h)

end Rtx
